import Mathlib

/-!
Verification of the medical-OCR extraction pipeline
(`app/utils/medical_parser.py`, `app/utils/table_parser.py`,
`app/utils/patient_info.py`, `app/services/ocr_service.py`, `app/models.py`)
against its natural-language specification.

The Python code is shallowly embedded: strings are Lean `String`s (the
inputs are ASCII OCR text), Python numbers are `Rat`/`Nat`, fallible code
returns `Option`, and the concrete regular expressions of the source are
translated into executable character-level matchers that mirror Python's
leftmost-then-backtracking match order for those specific patterns.
Where the source iterates a Python `set` (whose iteration order depends on
the interpreter's hash seed), the embedding takes the iteration order as an
explicit parameter.
-/

namespace MedOCR

/-- Python `str` whitespace for ASCII text: the six characters stripped by
`str.strip()` and matched by `\s`. -/
def isPySpace (c : Char) : Bool :=
  c = ' ' || c = '\t' || c = '\n' || c = '\r' || c = '\x0b' || c = '\x0c'

/-- Python `str.strip()`: remove whitespace from both ends. -/
def pyStrip (s : String) : String :=
  String.mk (((s.toList.dropWhile isPySpace).reverse.dropWhile isPySpace).reverse)

/-- Python `str.lower()` on ASCII text. -/
def pyLower (s : String) : String := String.mk (s.toList.map Char.toLower)

/-- Python `str.upper()` on ASCII text. -/
def pyUpper (s : String) : String := String.mk (s.toList.map Char.toUpper)

/-- Whether `n` occurs as a contiguous sublist of `h` (Python's `n in h` on strings). -/
def isSubList (n : List Char) : List Char → Bool
  | [] => n.isEmpty
  | c :: t => n.isPrefixOf (c :: t) || isSubList n t

/-- Python's substring test `needle in hay`. -/
def pyIn (needle hay : String) : Bool := isSubList needle.toList hay.toList

/-- Python's `str.startswith`. -/
def pyStartsWith (s prefixStr : String) : Bool := prefixStr.toList.isPrefixOf s.toList

/-- The specimen keyword set of `MedicalTestParser.extract_investigations`
(step 1).  The source holds these in a Python `set`, but only membership is
ever used there (`any(spec in upper_text ...)`), so a list is faithful. -/
def specimen_keywords : List String := ["EDTA", "URINE", "PLASMA", "SERUM", "WHOLE"]

/-- A line opens a new block when any specimen keyword is a substring of its
uppercased text (`extract_investigations`, step 1). -/
def hasSpecimen (text : String) : Bool :=
  specimen_keywords.any (fun k => pyIn k (pyUpper text))

/-- The block-splitting loop of `extract_investigations` (step 1), with the
accumulated current block made explicit.  Each line is stripped; a line
containing a specimen keyword closes the current block (if non-empty) and
seeds a new one; other lines are appended to the current block; the final
block is flushed if non-empty. -/
def segmentGo (cur : List String) : List String → List (List String)
  | [] => if cur.isEmpty then [] else [cur]
  | l :: ls =>
    let text := pyStrip l
    if hasSpecimen text then
      (if cur.isEmpty then [] else [cur]) ++ segmentGo [text] ls
    else
      segmentGo (cur ++ [text]) ls

/-- Step 1 of `MedicalTestParser.extract_investigations`: split the OCR lines
into specimen-delimited blocks. -/
def split_into_blocks (lines : List String) : List (List String) :=
  segmentGo [] lines

/-- Embedding of `TemplateField` from `app/models.py`: one catalog entry with a canonical
field name, keyword synonyms, a field type and an owning section (`section` in the source; renamed `sectionName` because `section` is a Lean keyword). -/
structure TemplateField where
  field_name : String
  keywords : List String
  field_type : String
  sectionName : String
deriving DecidableEq, Repr

/-- Modelled from the spec: the static test-name catalog `test_name_fields`
(`app/services/get_test_names.py` is imported by the sources but is not among
the provided files).  Spec §3/§6 describe it as a fixed list of records
{canonical field name, keyword synonyms, owning category/section}; Scenario A
names a haematology entry `Haemoglobin`.  A small representative catalog with
single-token keywords stands in for it; every catalog-dependent theorem is
either parametric in the catalog or explicitly about this modelled value. -/
def test_name_fields : List TemplateField :=
  [ { field_name := "Haemoglobin", keywords := ["Haemoglobin", "Hemoglobin", "Hb"],
      field_type := "numeric", sectionName := "Haematology" },
    { field_name := "Total RBC Count", keywords := ["RBC", "Erythrocytes"],
      field_type := "numeric", sectionName := "Haematology" },
    { field_name := "Glucose", keywords := ["Glucose", "GLU"],
      field_type := "numeric", sectionName := "Biochemistry" } ]

/-- The name normalization used by `get_canonical_test_name` (both in
`MedicalTestParser` and `OCRService`): lowercase, then drop every character
outside `[a-z0-9]` (`re.sub(r'[^a-z0-9]', '', name.lower())`). -/
def cleanName (s : String) : String :=
  String.mk ((pyLower s).toList.filter
    (fun c => ('a' ≤ c && c ≤ 'z') || ('0' ≤ c && c ≤ '9')))

/-- One iteration of the `get_canonical_test_name` loop: the cleaned query
equals the cleaned field name, or the cleaned form of one of the keywords.
The source checks the field name first and then each keyword, but both
branches return the same `field.field_name`, so a single disjunction per
field is faithful. -/
def fieldMatches (name_clean : String) (f : TemplateField) : Bool :=
  name_clean = cleanName f.field_name ||
    f.keywords.any (fun kw => name_clean = cleanName kw)

/-- Embedding of `get_canonical_test_name` (identical in `MedicalTestParser` and
`OCRService`): the first catalog entry whose cleaned field name or cleaned
keyword equals the cleaned query wins; an unmatched name is returned
verbatim. -/
def get_canonical_test_name (fields : List TemplateField) (name : String) : String :=
  match fields.find? (fieldMatches (cleanName name)) with
  | some f => f.field_name
  | none => name

/-- The fixed category enumeration of `app/models.py`
(`InvestigationCategory`), in declaration order. -/
def InvestigationCategoryValues : List String :=
  ["haematology", "biochemistry", "microbiology", "serology", "immunology",
   "clinical pathology"]

/-- The category-detection test of `extract_investigations` (step 2) for one
candidate category against the lowercased block text. -/
def categoryHit (lower_block_text : String) (cat : String) : Bool :=
  pyIn (pyLower cat) lower_block_text ||
    [cat ++ ":", cat ++ " test", cat ++ " report", cat ++ " -"].any
      (fun keyword => pyIn keyword lower_block_text)

/-- The category-detection loop of `extract_investigations` (step 2).  The
source iterates `self.valid_categories`, a Python `set` whose iteration order
depends on the interpreter's string-hash seed, so the embedding takes the
iteration order as the explicit parameter `catOrder`. -/
def detect_category (catOrder : List String) (block_text : String) : Option String :=
  catOrder.find? (categoryHit (pyLower block_text))

/-- Python `\w` on ASCII text: letters, digits and underscore. -/
def isWordChar (c : Char) : Bool := c.isAlphanum || c = '_'

/-- Case-insensitive literal prefix match; returns the remaining suffix. -/
def ciPrefixOf : List Char → List Char → Option (List Char)
  | [], s => some s
  | _ :: _, [] => none
  | k :: ks, c :: cs => if k.toLower = c.toLower then ciPrefixOf ks cs else none

/-- Word boundary `\b` before the match: holds when there is no previous character or the
previous character is not a word character (the keywords searched for start
with a word character). -/
def boundaryBefore : Option Char → Bool
  | none => true
  | some p => !isWordChar p

/-- Word boundary `\b` after the match: holds when the input ends or the next character is
not a word character (the keywords searched for end with a word character). -/
def boundaryAfter : List Char → Bool
  | [] => true
  | r :: _ => !isWordChar r

/-- Case-insensitive word-bounded search for one keyword, per the pattern
`\b(kw)\b` with `re.IGNORECASE` built by `_build_test_patterns`. -/
def kwSearchAux (kw : List Char) (prev : Option Char) : List Char → Bool
  | [] => false
  | c :: cs =>
    (boundaryBefore prev &&
      (match ciPrefixOf kw (c :: cs) with
       | some rest => boundaryAfter rest
       | none => false)) || kwSearchAux kw (some c) cs

/-- Whether the compiled pattern of one catalog entry matches the block text:
`_build_test_patterns` compiles `\b(kw1|...|kwn)\b` over the entry's
keywords, which for the single-token alphanumeric keywords of the modelled
catalog matches exactly when some keyword occurs word-bounded,
case-insensitively.  (For multi-word keywords the source's
`re.escape(kw).replace(r'\ ', r'\\s+')` would produce a pattern demanding a
literal backslash; the modelled catalog avoids multi-word keywords.) -/
def field_pattern_matches (f : TemplateField) (block_text : String) : Bool :=
  f.keywords.any (fun kw => kwSearchAux kw.toList none block_text.toList)

/-- Embedding of `self.test_patterns.get(category, [])`: the catalog entries whose
lowercased section equals the category, in catalog order (the dict built by
`_build_test_patterns` groups entries by `field.section.lower()` preserving
insertion order). -/
def category_patterns (fields : List TemplateField) (cat : String) : List TemplateField :=
  fields.filter (fun f => pyLower f.sectionName = cat)

/-- Characters admitted by the units group `[a-zA-Z%/\.]` of
`_parse_test_line`. -/
def isUnitsChar (c : Char) : Bool := c.isAlpha || c = '%' || c = '/' || c = '.'

/-- Characters admitted by `[\d\.]` in the reference-range patterns. -/
def isRangeDigit (c : Char) : Bool := c.isDigit || c = '.'

/-- The hyphen or en-dash accepted by `[-–]`. -/
def isDash (c : Char) : Bool := c = '-' || c = '–'

/-- The range sub-pattern `[\d\.]+\s*[-–]\s*[\d\.]+`:
digits/dots, optional spaces, a dash, optional spaces, digits/dots, each run
greedy.  Backtracking cannot alter the result: a shortened digit run would
place a digit or dot where the dash (or the end of pattern) is required.
Returns the captured characters and the remaining suffix. -/
def matchRangeCore (s : List Char) : Option (List Char × List Char) :=
  let d1 := s.takeWhile isRangeDigit
  if d1.isEmpty then none else
  let r1 := s.dropWhile isRangeDigit
  let sp1 := r1.takeWhile isPySpace
  match r1.dropWhile isPySpace with
  | d :: r2 =>
    if isDash d then
      let sp2 := r2.takeWhile isPySpace
      let r3 := r2.dropWhile isPySpace
      let d2 := r3.takeWhile isRangeDigit
      if d2.isEmpty then none
      else some (d1 ++ sp1 ++ d :: (sp2 ++ d2), r3.dropWhile isRangeDigit)
    else none
  | [] => none

/-- Leftmost-position search driver for a pattern attempt `f` (mirrors
`re.search` trying each start position from the left; the final empty
position cannot satisfy any of the patterns used here). -/
def searchPos (f : List Char → Option (List Char)) : List Char → Option (List Char)
  | [] => f []
  | c :: cs =>
    match f (c :: cs) with
    | some r => some r
    | none => searchPos f cs

/-- After `ref`/`reference`/`range`/`normal`: the tail `\s*:\s*(range)` of
reference-range patterns 1 and 4. -/
def refRangeAfterColon (s : List Char) : Option (List Char) :=
  match s.dropWhile isPySpace with
  | ':' :: s2 => (matchRangeCore (s2.dropWhile isPySpace)).map (·.1)
  | _ => none

/-- Reference-range pattern 1 of `_extract_reference_range`, attempted at one
position: `(?:ref\.?|reference)\s*:\s*([\d\.]+\s*[-–]\s*[\d\.]+)`
(case-sensitive: the source passes no flag to this `re.search`).  The
`ref\.?` alternative is tried first, with and then without the optional dot;
the `reference` alternative is tried when that fails, mirroring the regex
alternation order. -/
def refPat1At (s : List Char) : Option (List Char) :=
  if "ref".toList.isPrefixOf s then
    let s3 := s.drop 3
    let alt1 :=
      match s3 with
      | '.' :: s4 =>
        (match refRangeAfterColon s4 with
         | some r => some r
         | none => refRangeAfterColon s3)
      | _ => refRangeAfterColon s3
    match alt1 with
    | some r => some r
    | none =>
      if "reference".toList.isPrefixOf s then refRangeAfterColon (s.drop 9) else none
  else none

/-- Reference-range pattern 2, attempted at one position:
`([\d\.]+\s*[-–]\s*[\d\.]+)\s*\(?ref\.?\)?` — a range followed (after
optional spaces and an optional opening parenthesis) by the literal `ref`;
the trailing `\.?\)?` cannot fail. -/
def refPat2At (s : List Char) : Option (List Char) :=
  match matchRangeCore s with
  | some (cap, rest) =>
    let r1 := rest.dropWhile isPySpace
    let r2 := match r1 with
      | '(' :: t => t
      | _ => r1
    if "ref".toList.isPrefixOf r2 then some cap else none
  | none => none

/-- Reference-range pattern 3, attempted at one position:
`\(([\d\.]+\s*[-–]\s*[\d\.]+)\)` — a parenthesized range. -/
def refPat3At (s : List Char) : Option (List Char) :=
  match s with
  | '(' :: t =>
    match matchRangeCore t with
    | some (cap, ')' :: _) => some cap
    | _ => none
  | _ => none

/-- Reference-range pattern 4, attempted at one position:
`(?:range|normal)\s*:\s*([\d\.]+\s*[-–]\s*[\d\.]+)` (case-sensitive). -/
def refPat4At (s : List Char) : Option (List Char) :=
  if "range".toList.isPrefixOf s then refRangeAfterColon (s.drop 5)
  else if "normal".toList.isPrefixOf s then refRangeAfterColon (s.drop 6)
  else none

/-- Reference-range pattern 5, attempted at one position:
`[\d\.]+\s*[-–]\s*[\d\.]+$` — a range ending the text (the block texts the
parser builds contain no newline, so `$` is end-of-string). -/
def refPat5At (s : List Char) : Option (List Char) :=
  match matchRangeCore s with
  | some (cap, []) => some cap
  | _ => none

/-- Embedding of `_extract_reference_range`: try the five range patterns in order, each
searched leftmost over the whole text; the first match's captured range is
returned stripped. -/
def extract_reference_range (text : String) : Option String :=
  let cs := text.toList
  let hit :=
    match searchPos refPat1At cs with
    | some r => some r
    | none =>
      match searchPos refPat2At cs with
      | some r => some r
      | none =>
        match searchPos refPat3At cs with
        | some r => some r
        | none =>
          match searchPos refPat4At cs with
          | some r => some r
          | none => searchPos refPat5At cs
  hit.map (fun r => pyStrip (String.mk r))

/-- Embedding of `VALID_SPECIMENS` of `_extract_specimen` is a Python set whose iteration
order is hash-seed dependent; the embedding takes the order as the parameter
`specOrder`.  The first specimen keyword (in that order) occurring in the
uppercased line is returned; the `category` parameter of the source is unused
by its body and is omitted. -/
def extract_specimen (specOrder : List String) (line : String) : Option String :=
  specOrder.find? (fun sp => pyIn sp (pyUpper line))

/-- Embedding of `_extract_flag`: `re.search(rf'{re.escape(value_str)}\s*([HL])\b', line,
re.IGNORECASE)` — at the leftmost occurrence of the value literal followed by
optional spaces, an `H`/`L` (either case) and a word boundary, the flag letter
uppercased.  Backtracking inside `\s*` cannot help: a retained space can never
match `[HL]`. -/
def extract_flag_aux (v : List Char) : List Char → Option Char
  | [] => none
  | c :: cs =>
    (if v.isPrefixOf (c :: cs) then
      match ((c :: cs).drop v.length).dropWhile isPySpace with
      | f :: rest =>
        if (f = 'H' || f = 'L' || f = 'h' || f = 'l') && boundaryAfter rest then
          some f.toUpper
        else none
      | [] => none
    else none).orElse (fun _ => extract_flag_aux v cs)

/-- Embedding of `_extract_flag` on a whole line. -/
def extract_flag (line : String) (value_str : List Char) : Option String :=
  (extract_flag_aux value_str line.toList).map (fun c => String.mk [c])

/-- Python `str.split()` (split on whitespace runs, dropping empties). -/
def pyWordsAux (acc : List Char) : List Char → List (List Char)
  | [] => if acc.isEmpty then [] else [acc.reverse]
  | c :: cs =>
    if isPySpace c then
      (if acc.isEmpty then pyWordsAux [] cs else acc.reverse :: pyWordsAux [] cs)
    else pyWordsAux (c :: acc) cs

/-- Embedding of `' '.join(raw_text.split())` from `_split_units_and_range`. -/
def joinSpaces (s : String) : String :=
  String.intercalate " " ((pyWordsAux [] s.toList).map String.mk)

/-- One numeric token `\d+\.?\d*` (greedy), returning capture and suffix. -/
def matchNumPart (s : List Char) : Option (List Char × List Char) :=
  let d1 := s.takeWhile Char.isDigit
  if d1.isEmpty then none else
  match s.dropWhile Char.isDigit with
  | '.' :: r2 => some (d1 ++ '.' :: r2.takeWhile Char.isDigit, r2.dropWhile Char.isDigit)
  | r => some (d1, r)

/-- The range pattern `\d+\.?\d*\s*[-–]\s*\d+\.?\d*` of
`_split_units_and_range`, attempted at one position.  Declining the optional
dot cannot rescue a failed attempt (the dot would then have to match `[-–]`
or a digit), so the greedy reading is exact. -/
def matchNumRange (s : List Char) : Option (List Char × List Char) :=
  match matchNumPart s with
  | none => none
  | some (n1, r1) =>
    let sp1 := r1.takeWhile isPySpace
    match r1.dropWhile isPySpace with
    | d :: r2 =>
      if isDash d then
        let sp2 := r2.takeWhile isPySpace
        match matchNumPart (r2.dropWhile isPySpace) with
        | some (n2, rest) => some (n1 ++ sp1 ++ d :: (sp2 ++ n2), rest)
        | none => none
      else none
    | [] => none

/-- Leftmost search for `matchNumRange`, also returning the text before the
match (the source slices `normalized_text[:range_start]`). -/
def rangeSearchAux (acc : List Char) : List Char → Option (List Char × List Char)
  | [] => none
  | c :: cs =>
    match matchNumRange (c :: cs) with
    | some (cap, _) => some (acc.reverse, cap)
    | none => rangeSearchAux (c :: acc) cs

/-- Embedding of `self.common_units` sorted by decreasing length, as in
`sorted(self.common_units, key=lambda x: -len(x))`.  The source's set makes
the order of equal-length entries hash-seed dependent; the list below fixes
one valid descending-length order.  No theorem in this file depends on the
tie order: the only caller reachable from the pipeline passes a units string
without digits, for which the loop is never entered. -/
def common_units_sorted : List String :=
  ["thousands/cumm", "millions/cumm", "Cells/cumm", "Lakhs/cumm", "mmol/L",
   "mg/dL", "ng/mL", "mEq/L", "ng/dL", "pg/mL", "g/dL", "IU/L", "mg/L",
   "U/L", "g/L", "pg", "fl", "fL", "%"]

/-- Embedding of `unit.replace(" ", "").lower()`. -/
def squashLower (s : String) : String :=
  String.mk ((s.toList.filter (fun c => c ≠ ' ')).map Char.toLower)

/-- Leftmost case-insensitive occurrence of the literal `u`, returning the
matched original-case characters (`unit_match.group()` in the source; the
catalog units contain no space, so the escaped pattern is the literal). -/
def ciFindSub (u : List Char) : List Char → Option (List Char)
  | [] => if u.isEmpty then some [] else none
  | c :: cs =>
    match ciPrefixOf u (c :: cs) with
    | some _ => some ((c :: cs).take u.length)
    | none => ciFindSub u cs

/-- Embedding of `_split_units_and_range`: normalize whitespace, search for an embedded
numeric range; without one, return the normalized text as units.  With one,
return the first known catalog unit found inside the pre-range part (checked
on space-stripped lowercase text, extracted in original case), or otherwise
the pre-range part with every character outside `[a-zA-Z/%]` replaced by a
space and stripped, or no units at all. -/
def split_units_and_range (raw_text : String) : Option String × Option String :=
  let normalized_text := joinSpaces raw_text
  match rangeSearchAux [] normalized_text.toList with
  | none => (some normalized_text, none)
  | some (before, cap) =>
    let units_part := pyStrip (String.mk before)
    let range_part := String.mk cap
    match common_units_sorted.findSome? (fun u =>
        if pyIn (squashLower u) (squashLower units_part) then
          (ciFindSub u.toList units_part.toList).map String.mk
        else none) with
    | some clean_units => (some clean_units, some range_part)
    | none =>
      let units_candidate := pyStrip (String.mk (units_part.toList.map
        (fun c => if c.isAlpha || c = '/' || c = '%' then c else ' ')))
      if units_candidate = "" then (none, some range_part)
      else (some units_candidate, some range_part)

/-- Digit run to `Nat`. -/
def digitsToNat (ds : List Char) : Nat :=
  ds.foldl (fun n c => 10 * n + (c.toNat - '0'.toNat)) 0

/-- A Python number parsed from an unsigned decimal literal, kept as the
exact decimal `mantissa / 10 ^ scale` (`scale = 0` for `int`s).  The source
stores dotted literals as binary floats, but every value string captured by
the parsers is a short decimal for which Python's float/str round-trip is the
identity, and values are only ever consumed through equality of their decimal
rendering (`normalize_value`), so the exact decimal is a faithful model.  The
value regexes admit no sign, hence no sign field. -/
structure PyNum where
  mantissa : Nat
  scale : Nat
deriving DecidableEq, Repr

/-- Embedding of `float(value_str) if '.' in value_str else int(value_str)` on the capture
of the value group. -/
def parseDecimal (value_str : List Char) : PyNum :=
  let intPart := value_str.takeWhile (fun c => c ≠ '.')
  let frac := (value_str.dropWhile (fun c => c ≠ '.')).drop 1
  { mantissa := digitsToNat (intPart ++ frac), scale := frac.length }

/-- The optional units group
`(?P<units>[a-zA-Z%/\.]+(?:\s*/\s*[a-zA-Z]+)?)?` of `_parse_test_line`,
greedy, attempted at the current position; the capture spans the consumed
text including any internal spaces around a slash. -/
def matchUnitsOpt (s : List Char) : Option (List Char) × List Char :=
  match s with
  | [] => (none, [])
  | c :: _ =>
    if isUnitsChar c then
      let r1 := s.takeWhile isUnitsChar
      let rest := s.dropWhile isUnitsChar
      let sp1 := rest.takeWhile isPySpace
      match rest.dropWhile isPySpace with
      | '/' :: r3 =>
        let sp2 := r3.takeWhile isPySpace
        let r4 := r3.dropWhile isPySpace
        let letters := r4.takeWhile Char.isAlpha
        if letters.isEmpty then (some r1, rest)
        else (some (r1 ++ sp1 ++ '/' :: (sp2 ++ letters)), r4.dropWhile Char.isAlpha)
      | _ => (some r1, rest)
    else (none, s)

/-- The main regex of `_parse_test_line`:
`(?P<value>\d+\.?\d*)\s*(?P<units>[a-zA-Z%/\.]+(?:\s*/\s*[a-zA-Z]+)?)?\s*(?P<range>[\d\.]+\s*[-–]\s*[\d\.]+)?`,
searched leftmost.  The match anchors at the first digit of the line; the
units and range groups are optional, so after the value the attempt can never
fail and no backtracking across groups occurs. -/
def parseTestLineSearch : List Char → Option (List Char × Option (List Char) × Option (List Char))
  | [] => none
  | c :: cs =>
    if c.isDigit then
      let s := c :: cs
      let d1 := s.takeWhile Char.isDigit
      let r1 := s.dropWhile Char.isDigit
      let (value, rest) :=
        match r1 with
        | '.' :: r2 => (d1 ++ '.' :: r2.takeWhile Char.isDigit, r2.dropWhile Char.isDigit)
        | _ => (d1, r1)
      let rest1 := rest.dropWhile isPySpace
      let (units, rest2) := matchUnitsOpt rest1
      let rest3 := rest2.dropWhile isPySpace
      let range := (matchRangeCore rest3).map (·.1)
      some (value, units, range)
    else parseTestLineSearch cs

/-- Embedding of `app/models.py` `TestResult`, extended with the `method` key that the
table strategy's result dicts carry and the merge engine reads (a key absent
from a dict reads as `None`; the pydantic model ignores the extra key). -/
structure TestResult where
  value : Option PyNum
  units : Option String
  reference_range : Option String
  flag : Option String
  specimen : Option String
  method : Option String
deriving DecidableEq, Repr

/-- An investigation candidate: category, test name, results (the dict shape
produced by `_parse_test_line` and consumed by the merge engine). -/
structure Investigation where
  investigation : String
  test_name : String
  results : TestResult
deriving DecidableEq, Repr

/-- Embedding of `_parse_test_line`: extract value, units, reference range, flag and
specimen from a block's text for one matched test.  Returns `none` exactly
when the text contains no digit (the value group cannot match). -/
def parse_test_line (fields : List TemplateField) (specOrder : List String)
    (category test_name line : String) : Option Investigation :=
  match parseTestLineSearch line.toList with
  | none => none
  | some (value_str, unitsCap, rangeCap) =>
    let value := parseDecimal value_str
    let ur :=
      match unitsCap with
      | some raw => split_units_and_range (String.mk raw)
      | none => ((none : Option String), (none : Option String))
    let ref_range :=
      match rangeCap with
      | some r => some (String.mk r)
      | none => ur.2
    some { investigation := category,
           test_name := get_canonical_test_name fields test_name,
           results := { value := some value, units := ur.1,
                        reference_range := ref_range,
                        flag := extract_flag line value_str,
                        specimen := extract_specimen specOrder line,
                        method := none } }

/-- One iteration of step 2 of `extract_investigations`: detect the block's
category (falling back to the carried-over category), then for every catalog
pattern of that category matching the block text, parse the block and append
the investigation with its `reference_range` overwritten by
`_extract_reference_range`'s result, or `"Not available"`. -/
def process_block (fields : List TemplateField) (catOrder specOrder : List String)
    (state : Option String × List Investigation) (block : List String) :
    Option String × List Investigation :=
  let block_text := String.intercalate " " block
  let newCat :=
    match detect_category catOrder block_text with
    | some c => some c
    | none => state.1
  match newCat with
  | none => (none, state.2)
  | some cat =>
    let invs := (category_patterns fields cat).foldl (fun acc f =>
      if field_pattern_matches f block_text then
        match parse_test_line fields specOrder cat f.field_name block_text with
        | some inv =>
          let rr := (extract_reference_range block_text).getD "Not available"
          acc ++ [{ inv with results := { inv.results with reference_range := some rr } }]
        | none => acc
      else acc) state.2
    (some cat, invs)

/-- The nested `data` dict of the `extract_investigations` return value. -/
structure MPData where
  investigations : List Investigation
  source : String
  confidence : PyNum
deriving DecidableEq, Repr

/-- The return shape of `MedicalTestParser.extract_investigations`. -/
structure MPResult where
  success : Bool
  message : String
  data : MPData
  error : Option String
deriving DecidableEq, Repr

/-- Embedding of `MedicalTestParser.extract_investigations` on the OCR line texts (the
`ocr_data["lines"]` entries' `"text"` values; `full_text` is read by the
source but never used).  `catOrder`/`specOrder` are the hash-seed-dependent
iteration orders of the source's category and specimen sets. -/
def extract_investigations (fields : List TemplateField)
    (catOrder specOrder : List String) (lines : List String) : MPResult :=
  let blocks := split_into_blocks lines
  let folded := blocks.foldl (process_block fields catOrder specOrder)
    ((none : Option String), ([] : List Investigation))
  { success := true,
    message := "Extraction successful",
    data := { investigations := folded.2, source := "OCR Document",
              confidence := { mantissa := 95, scale := 2 } },
    error := none }

/-- Half-up rounding of a (nonnegative) decimal to 2 places, scaled by 100:
`⌊v·100 + 1/2⌋ = (200·mantissa + 10^scale) / (2·10^scale)` in integer
division.  `ROUND_HALF_UP` rounds ties away from zero, which on the
nonnegative parsed values coincides with this. -/
def roundHalfUp2 (v : PyNum) : Nat :=
  (200 * v.mantissa + 10 ^ v.scale) / (2 * 10 ^ v.scale)

/-- Two-digit zero padding. -/
def pad2 (n : Nat) : String := if n < 10 then "0" ++ toString n else toString n

/-- Decimal string of a two-decimal quantized value scaled by 100
(`str` of the quantized `Decimal`, e.g. `1350 ↦ "13.50"`). -/
def decimal2String (n : Nat) : String :=
  toString (n / 100) ++ "." ++ pad2 (n % 100)

/-- Embedding of `OCRService.normalize_value`:
`str(Decimal(str(value)).quantize(Decimal('0.01'), rounding=ROUND_HALF_UP))`.
The candidate values reaching it are exact short decimals, for which Python's
float/str round-trip is the identity, so quantizing the exact decimal is
faithful.  For a `None` value, `Decimal('None')` raises and the bare `except`
returns `str(None)`. -/
def normalize_value : Option PyNum → String
  | some v => decimal2String (roundHalfUp2 v)
  | none => "None"

/-- The deduplication key of `merge_investigation_results`:
`f"{canonical test name}:{normalized value}"`. -/
def dedup_key (fields : List TemplateField) (inv : Investigation) : String :=
  get_canonical_test_name fields inv.test_name ++ ":" ++ normalize_value inv.results.value

/-- Python truthiness of an optional string field: `None` and `''` are falsy
(`if not existing.get(key)`). -/
def pyTruthyOS : Option String → Bool
  | none => false
  | some s => s ≠ ""

/-- One field of the merge backfill:
`if not existing.get(key) and new.get(key): existing[key] = new[key]`. -/
def backfillField (old new : Option String) : Option String :=
  if !pyTruthyOS old && pyTruthyOS new then new else old

/-- The merge backfill over the five subordinate keys
`['units', 'flag', 'reference_range', 'method', 'specimen']`; the value and
the identity fields of the existing record are never touched. -/
def backfillResults (old new : TestResult) : TestResult :=
  { old with
    units := backfillField old.units new.units,
    flag := backfillField old.flag new.flag,
    reference_range := backfillField old.reference_range new.reference_range,
    method := backfillField old.method new.method,
    specimen := backfillField old.specimen new.specimen }

/-- Update the stored record for `key` in the insertion-ordered mapping. -/
def mergeUpdate (key : String) (inv : Investigation) :
    List (String × Investigation) → List (String × Investigation)
  | [] => []
  | (k, e) :: rest =>
    if k = key then (k, { e with results := backfillResults e.results inv.results }) :: rest
    else (k, e) :: mergeUpdate key inv rest

/-- The deduplication loop of `merge_investigation_results`: fold the
normalized candidates into a mapping keyed by `dedup_key` (a Python dict in
insertion order, modelled as an association list); the first candidate for a
key becomes the record, later ones only backfill. -/
def mergeFold (fields : List TemplateField) (acc : List (String × Investigation)) :
    List Investigation → List (String × Investigation)
  | [] => acc
  | inv :: rest =>
    let key := dedup_key fields inv
    if (acc.find? (fun kv => kv.1 = key)).isSome then
      mergeFold fields (mergeUpdate key inv acc) rest
    else
      mergeFold fields (acc ++ [(key, inv)]) rest

/-- Embedding of `OCRService.merge_investigation_results`.  The source's first loop also
flattens a nested `"latest"` dict shape; the typed candidate records here are
already flat, for which that loop keeps `results` as-is and only filters out
entries with a falsy test name or a `None` value.  The result is the mapping's
values in first-insertion order. -/
def merge_investigation_results (fields : List TemplateField)
    (medical_results table_results : List Investigation) : List Investigation :=
  let normalized_results := (medical_results ++ table_results).filter
    (fun inv => (inv.test_name != "") && inv.results.value.isSome)
  (mergeFold fields [] normalized_results).map (·.2)

/-- The spec's union-with-first-seen-precedence on one subordinate field: the
first populated value wins, where a field counts as populated when it is
non-null and non-empty (the claim's "still null or empty"). -/
def firstPopulated (x y : Option String) : Option String :=
  if pyTruthyOS x then x else if pyTruthyOS y then y else x

/-- A compiled patient-info regex of `PatientInfoExtractor` is embedded by
its denotation: applied to the full text it returns the first match's capture
group 1 — or, for the two-group age/sex patterns, both captures — and `none`
when it does not match.  The concrete pattern lists live in
`PatientInfoExtractor.__init__`; the claims proved about the extractor hold
for every choice of patterns, so the embedding is parametric in these
denotations. -/
structure PatientPatterns where
  patient_name : List (String → Option String)
  age_sex : List (String → Option (String × String))
  patient_id : List (String → Option String)
  sid_no : List (String → Option String)
  collected_date : List (String → Option String)
  reported_date : List (String → Option String)
  ref_by : List (String → Option String)

/-- Embedding of `_extract_field`: the first pattern that matches determines the value
(`match.group(1).strip()`); later patterns for the field are never tried. -/
def _extract_field (patterns : List (String → Option String)) (text : String) :
    Option String :=
  patterns.findSome? (fun p => (p text).map pyStrip)

/-- Embedding of `_clean_text_field`: first line of the text, stripped. -/
def _clean_text_field (text : String) : String :=
  if text = "" then ""
  else pyStrip (String.mk (text.toList.takeWhile (fun c => c ≠ '\n')))

/-- Embedding of `_extract_age_sex`: the first two-group pattern that matches yields
`"<age> Y <SEX>"`, with the sex capture uppercased and normalized to
`M`/`F` (every age/sex pattern of the source has exactly two groups). -/
def _extract_age_sex (patterns : List (String → Option (String × String)))
    (text : String) : Option String :=
  patterns.findSome? (fun p => (p text).map (fun g =>
    let age := pyStrip g.1
    let sex0 := pyUpper (pyStrip g.2)
    let sex :=
      if pyLower sex0 = "male" || pyLower sex0 = "m" then "M"
      else if pyLower sex0 = "female" || pyLower sex0 = "f" then "F"
      else sex0
    age ++ " Y " ++ sex))

/-- The time pattern `[\d]{1,2}:[\d]{2}([:\d]*)` of `_clean_date_field`,
attempted at one position with two leading digits (the greedy `{1,2}`
preference); returns the suffix after the match. -/
def timeMatch2 (s : List Char) : Option (List Char) :=
  match s with
  | a :: b :: ':' :: c :: d :: rest =>
    if a.isDigit && b.isDigit && c.isDigit && d.isDigit then
      some (rest.dropWhile (fun ch => ch.isDigit || ch = ':'))
    else none
  | _ => none

/-- The same time pattern attempted with one leading digit. -/
def timeMatch1 (s : List Char) : Option (List Char) :=
  match s with
  | a :: ':' :: c :: d :: rest =>
    if a.isDigit && c.isDigit && d.isDigit then
      some (rest.dropWhile (fun ch => ch.isDigit || ch = ':'))
    else none
  | _ => none

/-- One attempt of the time pattern at a position: two digits preferred. -/
def timeMatchAt (s : List Char) : Option (List Char) :=
  match timeMatch2 s with
  | some r => some r
  | none => timeMatch1 s

/-- Embedding of `re.sub(r'[\d]{1,2}:[\d]{2}([:\d]*)', '', date_str)`: delete every
non-overlapping clock-time substring, scanning left to right.  The recursion
is driven by a length fuel so that it stays structural (and hence
kernel-computable); `timeMatchAt_length` shows every match consumes at least
one character, so with fuel `s.length` the zero-fuel branch is unreachable. -/
def pySubTimeGo : Nat → List Char → List Char
  | 0, s => s
  | _, [] => []
  | Nat.succ n, c :: cs =>
    match timeMatchAt (c :: cs) with
    | some rest => pySubTimeGo n rest
    | none => c :: pySubTimeGo n cs

/-- Embedding of `re.sub(r'[\d]{1,2}:[\d]{2}([:\d]*)', '', date_str)`. -/
def pySubTime (s : List Char) : List Char := pySubTimeGo s.length s

/-- Python `str.endswith`. -/
def pyEndsWith (s suffixStr : String) : Bool :=
  suffixStr.toList.isSuffixOf s.toList

/-- Embedding of `_clean_date_field`: strip embedded clock times, strip, trim a trailing
`" /"` or `"/"`, trim a trailing double space, then take the first line. -/
def _clean_date_field (date_str : String) : String :=
  if date_str = "" then ""
  else
    let c1 := pyStrip (String.mk (pySubTime date_str.toList))
    let c2 :=
      if pyEndsWith c1 " /" then pyStrip (c1.dropRight 2)
      else if pyEndsWith c1 "/" then pyStrip (c1.dropRight 1)
      else c1
    let c3 := if 2 ≤ c2.length && pyEndsWith c2 "  " then c2.dropRight 2 else c2
    _clean_text_field c3

/-- Gregorian leap-year rule. -/
def isLeap (y : Nat) : Bool := (y % 4 = 0 && y % 100 ≠ 0) || y % 400 = 0

/-- Days in a Gregorian month. -/
def daysInMonth (m y : Nat) : Nat :=
  if m = 2 then (if isLeap y then 29 else 28)
  else if m = 4 || m = 6 || m = 9 || m = 11 then 30 else 31

/-- Split a character list at a separator character. -/
def splitOnChar (sep : Char) : List Char → List (List Char)
  | [] => [[]]
  | c :: cs =>
    let r := splitOnChar sep cs
    if c = sep then [] :: r
    else
      match r with
      | h :: t => (c :: h) :: t
      | [] => [[c]]

/-- Embedding of `datetime.strptime` modelled for the day/month/year formats `_parse_date`
tries: day and month take 1-2 digits, the year 1-4 digits for `%Y` and
1-2 digits for `%y` (mapped to 1969-2068), the whole string must be consumed,
and the date must be a valid Gregorian date (`strptime` raises `ValueError`
otherwise). -/
def strptimeDMY (s : String) (sep : Char) (twoDigitYear : Bool) :
    Option (Nat × Nat × Nat) :=
  match splitOnChar sep s.toList with
  | [ds, ms, ys] =>
    if ds.all Char.isDigit && ms.all Char.isDigit && ys.all Char.isDigit &&
        decide (1 ≤ ds.length) && decide (ds.length ≤ 2) &&
        decide (1 ≤ ms.length) && decide (ms.length ≤ 2) &&
        decide (1 ≤ ys.length) &&
        decide (ys.length ≤ (if twoDigitYear then 2 else 4)) then
      let d := digitsToNat ds
      let m := digitsToNat ms
      let y0 := digitsToNat ys
      let y := if twoDigitYear then (if y0 ≤ 68 then 2000 + y0 else 1900 + y0) else y0
      if decide (1 ≤ m) && decide (m ≤ 12) && decide (1 ≤ d) &&
          decide (d ≤ daysInMonth m y) then
        some (d, m, y)
      else none
    else none
  | _ => none

/-- Four-digit zero padding (`%Y` in `strftime`). -/
def pad4 (n : Nat) : String :=
  if n < 10 then "000" ++ toString n
  else if n < 100 then "00" ++ toString n
  else if n < 1000 then "0" ++ toString n
  else toString n

/-- Embedding of `_parse_date`: `None` for a falsy input; otherwise try the formats
`%d/%m/%Y`, `%d-%m-%Y`, `%d/%m/%y`, `%d-%m-%y` on the stripped input in
order and re-emit the first success as zero-padded `DD/MM/YYYY`; if none
matches, return the input verbatim. -/
def _parse_date (date_str : String) : Option String :=
  if date_str = "" then none
  else
    let t := pyStrip date_str
    let fmts : List (Char × Bool) := [('/', false), ('-', false), ('/', true), ('-', true)]
    match fmts.findSome? (fun fb => strptimeDMY t fb.1 fb.2) with
    | some (d, m, y) => some (pad2 d ++ "/" ++ pad2 m ++ "/" ++ pad4 y)
    | none => some date_str

/-- The flat dictionary built by `extract_patient_information`: a key is
present (`some`) exactly when the source inserts it. -/
structure PatientDict where
  patient_name : Option String := none
  age_sex : Option String := none
  patient_id : Option String := none
  sid_no : Option String := none
  collected_date : Option String := none
  reported_date : Option String := none
  ref_by : Option String := none
deriving DecidableEq, Repr

/-- A date field of `extract_patient_information`: extract, and if truthy,
clean; store the parsed date when parsing succeeds, the cleaned string
otherwise (`parsed_date if parsed_date else cleaned_date`). -/
def extractDateField (patterns : List (String → Option String)) (full_text : String) :
    Option String :=
  match _extract_field patterns full_text with
  | some s =>
    if s = "" then none
    else
      let cleaned := _clean_date_field s
      let v := match _parse_date cleaned with
        | some p => if p = "" then cleaned else p
        | none => cleaned
      some v
  | none => none

/-- A plain text field of `extract_patient_information`: extract, and if
truthy, store the first-line-stripped cleaning. -/
def extractTextField (patterns : List (String → Option String)) (full_text : String) :
    Option String :=
  match _extract_field patterns full_text with
  | some s => if s = "" then none else some (_clean_text_field s)
  | none => none

/-- Embedding of `PatientInfoExtractor.extract_patient_information` on the OCR line texts:
join the lines with newlines and extract each field independently, inserting
a key only when the extraction is truthy. -/
def extract_patient_information (pp : PatientPatterns) (lines : List String) :
    PatientDict :=
  let full_text := String.intercalate "\n" lines
  { patient_name := extractTextField pp.patient_name full_text,
    age_sex := _extract_age_sex pp.age_sex full_text,
    patient_id := extractTextField pp.patient_id full_text,
    sid_no := extractTextField pp.sid_no full_text,
    collected_date := extractDateField pp.collected_date full_text,
    reported_date := extractDateField pp.reported_date full_text,
    ref_by := extractTextField pp.ref_by full_text }

/-- Embedding of `app/models.py` `PatientInformation`: a pydantic model whose seven
optional string fields default to the `"Not Provided"` sentinel.  The record
always carries all seven fields, whatever the input dict. -/
structure PatientInformation where
  patient_name : String
  age_sex : String
  patient_id : String
  sid_no : String
  collected_date : String
  reported_date : String
  ref_by : String
deriving DecidableEq, Repr

/-- Embedding of `PatientInformation(**info)`: a key present in the dict supplies the
field; a missing key leaves the `"Not Provided"` default. -/
def PatientInformation.ofDict (d : PatientDict) : PatientInformation :=
  { patient_name := d.patient_name.getD "Not Provided",
    age_sex := d.age_sex.getD "Not Provided",
    patient_id := d.patient_id.getD "Not Provided",
    sid_no := d.sid_no.getD "Not Provided",
    collected_date := d.collected_date.getD "Not Provided",
    reported_date := d.reported_date.getD "Not Provided",
    ref_by := d.ref_by.getD "Not Provided" }

/-- An empty pattern table (no regex matches any field). -/
def no_patient_patterns : PatientPatterns :=
  { patient_name := [], age_sex := [], patient_id := [], sid_no := [],
    collected_date := [], reported_date := [], ref_by := [] }

/-- Embedding of `OCRService._extract_investigations_medical_parser`: run the medical
parser; when it reports success (which it always does), return its
investigation list, otherwise `[]`. -/
def extract_investigations_medical_strategy (fields : List TemplateField)
    (catOrder specOrder : List String) (lines : List String) : List Investigation :=
  let parser_result := extract_investigations fields catOrder specOrder lines
  if parser_result.success then parser_result.data.investigations else []

/-- The `handle_invalid_investigations` validator of
`app/models.py` `ExtractionResult`: each raw investigation is re-validated as
an `Investigation` model; for the typed candidates of this pipeline the only
validation that can fail is the coercion of the category string into the
`InvestigationCategory` enum, so entries with a category outside the
enumeration are skipped with a warning (whose text here abbreviates the
pydantic error message). -/
def validate_investigations (invs : List Investigation) :
    List Investigation × List String :=
  (invs.filter (fun i => InvestigationCategoryValues.contains i.investigation),
   (invs.filter (fun i => !InvestigationCategoryValues.contains i.investigation)).map
     (fun i => "Skipped investigation " ++ i.test_name))

/-- Embedding of `app/models.py` `ExtractionResult` (the terminal artifact of
`process_ocr_results`). -/
structure ExtractionResult where
  patient_information : PatientInformation
  investigations : List Investigation
  source : String
  warnings : List String
deriving DecidableEq, Repr

/-- Embedding of `OCRService._create_error_response`: an `ExtractionResult` with empty
patient dict (all seven sentinels), no investigations and the default source.
The `quality_notes=...` keyword the source passes does not exist on the
pydantic model and is silently discarded (pydantic ignores extra keys), so
the error message leaves no trace on the result. -/
def create_error_response (_e : String) : ExtractionResult :=
  { patient_information := PatientInformation.ofDict {},
    investigations := [],
    source := "OCR Document",
    warnings := [] }

/-- The `try` body of `OCRService.process_ocr_results`: raise (`Except.error`)
on an empty line list, otherwise build the `ExtractionResult` from the
patient extractor and the medical parser (the only strategy this method
invokes). -/
def process_ocr_results_try (pp : PatientPatterns) (fields : List TemplateField)
    (catOrder specOrder : List String) (lines : List String) :
    Except String ExtractionResult :=
  if lines.isEmpty then
    Except.error "No text lines found in OCR results"
  else
    let patient_info := extract_patient_information pp lines
    let investigations := extract_investigations_medical_strategy fields catOrder specOrder lines
    let vw := validate_investigations investigations
    Except.ok
      { patient_information := PatientInformation.ofDict patient_info,
        investigations := vw.1,
        source := "OCR Document",
        warnings := vw.2 }

/-- Embedding of `OCRService.process_ocr_results`: the enclosing
`except Exception: return self._create_error_response(e)` converts every
raised error into a normal `ExtractionResult`, so the method’s observable
type is total. -/
def process_ocr_results (pp : PatientPatterns) (fields : List TemplateField)
    (catOrder specOrder : List String) (lines : List String) : ExtractionResult :=
  match process_ocr_results_try pp fields catOrder specOrder lines with
  | Except.ok r => r
  | Except.error e => create_error_response e

/-- The iteration order of the specimen set used in concrete evaluations
(any order gives the same results on these inputs, which mention at most one
specimen keyword). -/
def specimen_order : List String := ["EDTA", "URINE", "PLASMA", "SERUM", "WHOLE"]

/-- An OCR line list on which the live pipeline emits two investigations with
the same merge key: the same test and value appear in two specimen-delimited
blocks. -/
def C1_failing_lines : List String :=
  ["HAEMATOLOGY Haemoglobin 13.5", "SERUM", "HAEMATOLOGY Haemoglobin 13.5"]

/-!  The Table-Line Parser (`app/utils/table_parser.py`).  Its single verbose
regex is embedded as a continuation-passing backtracking matcher whose choice
order mirrors Python's: greedy quantifiers prefer the longest consumption and
shrink on failure, lazy quantifiers the shortest and grow, optional groups
try the present branch first, and the first complete match wins. -/
/-- The capture groups of the table-row pattern. -/
structure TPCaps where
  specimen : Option String := none
  test_name : Option String := none
  method : Option String := none
  value : Option String := none
  flag : Option String := none
  units : Option String := none
  reference_range : Option String := none
deriving DecidableEq, Repr

/-- A continuation of the table-row matcher: remaining input and captures so
far to the overall result. -/
abbrev TPK := List Char → TPCaps → Option TPCaps

/-- Greedy `\s*` followed by the continuation. -/
def wsStarThen (k : TPK) : List Char → TPCaps → Option TPCaps
  | [], caps => k [] caps
  | c :: rest, caps =>
    if isPySpace c then
      match wsStarThen k rest caps with
      | some r => some r
      | none => k (c :: rest) caps
    else k (c :: rest) caps

/-- Greedy `\|?` followed by the continuation. -/
def optPipeThen (k : TPK) : List Char → TPCaps → Option TPCaps
  | [], caps => k [] caps
  | c :: rest, caps =>
    if c = '|' then
      match k rest caps with
      | some r => some r
      | none => k (c :: rest) caps
    else k (c :: rest) caps

/-- Lazy `cls+?`: consume one matching character at a time, trying the
continuation (which receives the capture) after each. -/
def plusLazyThen (cls : Char → Bool) (k : List Char → TPK) (acc : List Char) :
    List Char → TPCaps → Option TPCaps
  | [], _ => none
  | c :: rest, caps =>
    if cls c then
      match k (acc ++ [c]) rest caps with
      | some r => some r
      | none => plusLazyThen cls k (acc ++ [c]) rest caps
    else none

/-- Greedy `cls*`: consume as much as possible, backtracking one character at
a time when the continuation fails. -/
def starGreedyThen (cls : Char → Bool) (k : List Char → TPK) (acc : List Char) :
    List Char → TPCaps → Option TPCaps
  | [], caps => k acc [] caps
  | c :: rest, caps =>
    if cls c then
      match starGreedyThen cls k (acc ++ [c]) rest caps with
      | some r => some r
      | none => k acc (c :: rest) caps
    else k acc (c :: rest) caps

/-- Greedy `cls+`: one mandatory character, then greedy star. -/
def plusGreedyThen (cls : Char → Bool) (k : List Char → TPK) :
    List Char → TPCaps → Option TPCaps
  | [], _ => none
  | c :: rest, caps => if cls c then starGreedyThen cls k [c] rest caps else none

/-- Anchor `$`: the lines fed to the parser contain no newline, so end of input. -/
def tpEnd : TPK := fun s caps => if s.isEmpty then some caps else none

/-- Inside `(?:\|?\s*(?P<reference_range>[^|]+)\s*)?$` after the pipe and
spaces: the greedy capture, trailing spaces, end. -/
def tpRefTail : TPK := fun s caps =>
  plusGreedyThen (fun c => c ≠ '|')
    (fun cap s' caps' =>
      wsStarThen tpEnd s' { caps' with reference_range := some (String.mk cap) })
    s caps

/-- The optional reference-range group, then `$`. -/
def tpRefGroup : TPK := fun s caps =>
  match optPipeThen (wsStarThen tpRefTail) s caps with
  | some r => some r
  | none => tpEnd s caps

/-- Inside `(?:\|?\s*(?P<units>[^|]+?)\s*)?` after the pipe and spaces: the
lazy capture, trailing spaces, rest of pattern. -/
def tpUnitsTail : TPK := fun s caps =>
  plusLazyThen (fun c => c ≠ '|')
    (fun cap s' caps' =>
      wsStarThen tpRefGroup s' { caps' with units := some (String.mk cap) })
    [] s caps

/-- The optional units group. -/
def tpUnitsGroup : TPK := fun s caps =>
  match optPipeThen (wsStarThen tpUnitsTail) s caps with
  | some r => some r
  | none => tpRefGroup s caps

/-- Inside `(?:\|?\s*(?P<flag>[HL])\s*)?` after the pipe and spaces: one
`H`/`L` in either case (`re.IGNORECASE`), captured verbatim. -/
def tpFlagTail : TPK := fun s caps =>
  match s with
  | f :: rest =>
    if f = 'H' || f = 'L' || f = 'h' || f = 'l' then
      wsStarThen tpUnitsGroup rest { caps with flag := some (String.mk [f]) }
    else none
  | [] => none

/-- The optional flag group. -/
def tpFlagGroup : TPK := fun s caps =>
  match optPipeThen (wsStarThen tpFlagTail) s caps with
  | some r => some r
  | none => tpUnitsGroup s caps

/-- Record the value capture, consume `\s*`, continue with the flag group. -/
def tpValueDone (v : List Char) : TPK := fun s caps =>
  wsStarThen tpFlagGroup s { caps with value := some (String.mk v) }

/-- The `\.?\d*` tail of the value group: prefer taking the dot (and then the
greedy digit star), fall back to the dotless reading. -/
def tpDotPart (d1 : List Char) : TPK := fun s caps =>
  match s with
  | '.' :: rest =>
    (match starGreedyThen Char.isDigit (fun d2 => tpValueDone (d1 ++ '.' :: d2))
        [] rest caps with
     | some r => some r
     | none => tpValueDone d1 s caps)
  | _ => tpValueDone d1 s caps

/-- Embedding of `\|?\s*(?P<value>\d+\.?\d*)\s*` and the rest of the pattern. -/
def tpValuePart : TPK := fun s caps =>
  optPipeThen (wsStarThen (plusGreedyThen Char.isDigit tpDotPart)) s caps

/-- After the optional method group: `\s*` then the value part. -/
def tpAfterMethod : TPK := fun s caps => wsStarThen tpValuePart s caps

/-- Inside `(?:\s*\((?P<method>[^)]+)\))?` after the inner spaces: the
parenthesized greedy capture. -/
def tpMethodTail : TPK := fun s caps =>
  match s with
  | '(' :: rest =>
    plusGreedyThen (fun c => c ≠ ')')
      (fun cap s' caps' =>
        match s' with
        | ')' :: rest2 => tpAfterMethod rest2 { caps' with method := some (String.mk cap) }
        | _ => none)
      rest caps
  | _ => none

/-- The optional method group. -/
def tpMethodGroup : TPK := fun s caps =>
  match wsStarThen tpMethodTail s caps with
  | some r => some r
  | none => tpAfterMethod s caps

/-- Embedding of `(?P<test_name>[^|]+?)\s*` and the rest of the pattern. -/
def tpTestName : TPK := fun s caps =>
  plusLazyThen (fun c => c ≠ '|')
    (fun cap s' caps' =>
      wsStarThen tpMethodGroup s' { caps' with test_name := some (String.mk cap) })
    [] s caps

/-- After the optional specimen group: `\s*\|?\s*` then the test name. -/
def tpAfterSpecimen : TPK := fun s caps =>
  wsStarThen (optPipeThen (wsStarThen tpTestName)) s caps

/-- The optional `(?P<specimen>[A-Za-z]+)?` group. -/
def tpSpecimenGroup : TPK := fun s caps =>
  match plusGreedyThen (fun c => c.isAlpha)
      (fun cap s' caps' => tpAfterSpecimen s' { caps' with specimen := some (String.mk cap) })
      s caps with
  | some r => some r
  | none => tpAfterSpecimen s caps

/-- The whole table-row pattern of `parse_table_line` (`re.search` with
`^...$` anchors, so only position 0), yielding the group dictionary of the
first match in Python's backtracking order. -/
def tpMatch (line : String) : Option TPCaps :=
  wsStarThen tpSpecimenGroup line.toList {}

/-- Embedding of `TableLineParser.should_skip_line`: blank lines, header lines, separator
prefixes, and lines made only of `-=| ` characters. -/
def should_skip_line (line : String) : Bool :=
  let l := pyLower (pyStrip line)
  if l = "" then true
  else if pyStartsWith l "specimen" || pyStartsWith l "test name" ||
      pyStartsWith l "result" || pyStartsWith l "reference" then true
  else if pyStartsWith l "---" || pyStartsWith l "===" ||
      pyStartsWith l "___" || pyStartsWith l "|||" then true
  else if l.toList.all (fun c => c = '-' || c = '=' || c = '|' || c = ' ') then true
  else false

/-- The `unit_mappings` dict of `TableLineParser.normalize_units`, in
insertion (= iteration) order. -/
def unit_mappings : List (String × String) :=
  [("g/dl", "g/dL"), ("pg", "pg"), ("fl", "fl"), ("%", "%"),
   ("cells/cumm", "Cells / Cumm"), ("lakhs/cumm", "Lakhs / Cumm"),
   ("millions/cumm", "millions / cumm"), ("thousands/cumm", "thousands / cumm"),
   ("mm/hr", "mm/hr")]

/-- Embedding of `re.sub(r'\s+', ' ', s)`: collapse each maximal whitespace run to one
space (`prevSpace` records whether the previous character was whitespace). -/
def collapseWsAux (prevSpace : Bool) : List Char → List Char
  | [] => []
  | c :: cs =>
    if isPySpace c then
      if prevSpace then collapseWsAux true cs
      else ' ' :: collapseWsAux true cs
    else c :: collapseWsAux false cs

/-- Embedding of `re.sub(r'\s+', ' ', s)`. -/
def collapseWs (s : List Char) : List Char := collapseWsAux false s

/-- Embedding of `TableLineParser.normalize_units`: `None` for a falsy input; the first
`unit_mappings` entry whose key is a substring of the lowercased stripped
input wins (so e.g. `"mg/dL"` maps to `"g/dL"` via the `"g/dl"` key);
otherwise whitespace is collapsed, characters outside `[\w/%]` are removed,
and an empty cleanup yields `None`. -/
def normalize_units (raw : Option String) : Option String :=
  match raw with
  | none => none
  | some r =>
    if r = "" then none
    else
      let raw_units := pyStrip r
      let lower_units := pyLower raw_units
      match unit_mappings.findSome?
          (fun m => if pyIn m.1 lower_units then some m.2 else none) with
      | some std => some std
      | none =>
        let c1 := collapseWs raw_units.toList
        let c2 := String.mk (c1.filter (fun c => isWordChar c || c = '/' || c = '%'))
        if c2 = "" then none else some c2

/-- Embedding of `re.sub(r'^(Male|Female)\s*[:]?\s*', '', s, flags=IGNORECASE)`: the
anchored gender prefix (followed by greedy spaces, an optional colon and
greedy spaces) is removed when present. -/
def stripGenderLabel (s : String) : String :=
  let go (rest : List Char) : List Char :=
    let r1 := rest.dropWhile isPySpace
    let r2 := match r1 with
      | ':' :: t => t
      | _ => r1
    r2.dropWhile isPySpace
  match ciPrefixOf "male".toList s.toList with
  | some rest => String.mk (go rest)
  | none =>
    match ciPrefixOf "female".toList s.toList with
    | some rest => String.mk (go rest)
    | none => s

/-- One attempt of `\s*(to|-|–)\s*` at a position (alternatives in pattern
order; the separator is mandatory, so a match consumes at least one
character); returns the suffix after the match. -/
def sepMatchAt (s : List Char) : Option (List Char) :=
  match s.dropWhile isPySpace with
  | 't' :: 'o' :: t => some (t.dropWhile isPySpace)
  | '-' :: t => some (t.dropWhile isPySpace)
  | '–' :: t => some (t.dropWhile isPySpace)
  | _ => none

/-- Embedding of `re.sub(r'\s*(to|-|–)\s*', ' - ', s)`: replace each non-overlapping
separator occurrence, scanning left to right.  The recursion is driven by a
length fuel so that it stays structural (and hence kernel-computable);
`sepMatchAt_length` shows every match consumes at least one character, so
with fuel `s.length` the zero-fuel branch is unreachable. -/
def pySubSepGo : Nat → List Char → List Char
  | 0, s => s
  | _, [] => []
  | Nat.succ n, c :: cs =>
    match sepMatchAt (c :: cs) with
    | some rest => ' ' :: '-' :: ' ' :: pySubSepGo n rest
    | none => c :: pySubSepGo n cs

/-- Embedding of `re.sub(r'\s*(to|-|–)\s*', ' - ', s)`. -/
def pySubSep (s : List Char) : List Char := pySubSepGo s.length s

/-- Embedding of `TableLineParser.clean_reference_range`: `None` for a falsy input;
otherwise strip, drop a leading gender label, normalize separators to
`" - "`, and turn an empty result into `None`. -/
def clean_reference_range (raw : Option String) : Option String :=
  match raw with
  | none => none
  | some r =>
    if r = "" then none
    else
      let c1 := stripGenderLabel (pyStrip r)
      let c2 := String.mk (pySubSep c1.toList)
      if c2 = "" then none else some c2

/-- The flat result dict of `TableLineParser.parse_table_line`. -/
structure ParsedTableLine where
  test_name : String
  value : String
  unit : Option String
  reference_range : Option String
  flag : Option String
  sample_type : Option String
  method : Option String
deriving DecidableEq, Repr

/-- Embedding of `TableLineParser.parse_table_line`: skip headers/separators, run the
table-row pattern, validate the test name and value, and normalize the
units and reference range.  The broad `except` of the source is part of the
behaviour: when the optional `method` or `specimen` group did not participate
in the match, `groups.get('method', '').strip()` calls `.strip()` on `None`
(`dict.get` returns the present `None` value, not the default), raising
`AttributeError`, which the `except` converts into a `None` return — so a
line matching without a method or without a specimen yields no candidate. -/
def parse_table_line (line : String) : Option ParsedTableLine :=
  if should_skip_line line then none
  else
    match tpMatch line with
    | none => none
    | some g =>
      let test_name := pyStrip (g.test_name.getD "")
      if test_name = "" || test_name.length < 2 then none
      else
        match g.value with
        | none => none
        | some v =>
          if v = "" then none
          else
            let units := normalize_units g.units
            let flag := g.flag
            let reference_range := clean_reference_range g.reference_range
            match g.method with
            | none => none
            | some m =>
              match g.specimen with
              | none => none
              | some sp =>
                some { test_name := test_name, value := v, unit := units,
                       reference_range := reference_range, flag := flag,
                       sample_type :=
                         (if pyStrip sp = "" then none else some (pyStrip sp)),
                       method :=
                         (if pyStrip m = "" then none else some (pyStrip m)) }

/-!  Theorems: the claim statements, their witnesses and counterexamples,
and the helper lemmas they use. -/

lemma segmentGo_join (ls : List String) :
    ∀ cur : List String, (segmentGo cur ls).flatten = cur ++ ls.map pyStrip := by
  induction ls with
  | nil =>
    intro cur
    by_cases h : cur.isEmpty
    · simp [segmentGo, h, List.isEmpty_iff.mp h]
    · simp [segmentGo, h]
  | cons l ls ih =>
    intro cur
    by_cases hs : hasSpecimen (pyStrip l)
    · by_cases h : cur.isEmpty
      · simp [segmentGo, hs, h, ih, List.isEmpty_iff.mp h]
      · simp [segmentGo, hs, h, ih]
    · simp [segmentGo, hs, ih]

lemma segmentGo_no_marker (ls : List String)
    (h : ∀ l ∈ ls, hasSpecimen (pyStrip l) = false) :
    ∀ cur : List String, cur ≠ [] → segmentGo cur ls = [cur ++ ls.map pyStrip] := by
  induction ls with
  | nil =>
    intro cur hcur
    simp [segmentGo, List.isEmpty_iff, hcur]
  | cons l ls ih =>
    intro cur hcur
    have hl : hasSpecimen (pyStrip l) = false := h l (List.mem_cons_self _ _)
    have hrest : ∀ x ∈ ls, hasSpecimen (pyStrip x) = false :=
      fun x hx => h x (List.mem_cons_of_mem _ hx)
    simp only [segmentGo, hl, Bool.false_eq_true, if_false]
    rw [ih hrest (cur ++ [pyStrip l]) (by simp)]
    simp

/-- C9: segmentation is an order-preserving partition of the input: every
stripped line is placed in exactly one block, and concatenating the blocks in
order reproduces the stripped input lines in their original order. -/
theorem C9_blocks_partition (lines : List String) :
    (split_into_blocks lines).flatten = lines.map pyStrip := by
  simpa using segmentGo_join lines []

/-- C5 counterexample: the claim "for every list of N input lines with no
specimen marker, segmentation yields exactly one block containing all N lines
in their original order" fails (a) on the empty list, where segmentation
yields zero blocks rather than one, and (b) on a marker-free line carrying
surrounding whitespace, which appears in the block stripped, not in its
original form. -/
theorem C5_single_block_counterexample :
    (split_into_blocks []).length ≠ 1 ∧
      split_into_blocks [" a "] ≠ [[" a "]] := by
  constructor
  · decide
  · decide

/-- C5 (amended): for every non-empty list of input lines none of which
contains a specimen marker (case-insensitively), segmentation yields exactly
one block, containing every line — stripped of surrounding whitespace — in
the original order. -/
theorem C5_single_block_no_marker (lines : List String) (hne : lines ≠ [])
    (h : ∀ l ∈ lines, hasSpecimen (pyStrip l) = false) :
    split_into_blocks lines = [lines.map pyStrip] := by
  cases lines with
  | nil => exact absurd rfl hne
  | cons l ls =>
    have hl : hasSpecimen (pyStrip l) = false := h l (List.mem_cons_self _ _)
    have hrest : ∀ x ∈ ls, hasSpecimen (pyStrip x) = false :=
      fun x hx => h x (List.mem_cons_of_mem _ hx)
    simp only [split_into_blocks, segmentGo, hl, Bool.false_eq_true, if_false]
    rw [segmentGo_no_marker ls hrest ([] ++ [pyStrip l]) (by simp)]
    simp

/-- C5 witness: the amended statement at a concrete marker-free input. -/
theorem C5_single_block_no_marker_witness :
    split_into_blocks ["Haemoglobin 13.5", "  abc "] = [["Haemoglobin 13.5", "abc"]] :=
  C5_single_block_no_marker _ (by decide) (by decide)

/-- C6: canonical test-name resolution is idempotent on canonical names: for
a catalog entry `e` such that no entry listed before `e` has a cleaned field
name or cleaned keyword equal to `e`'s cleaned field name, resolving
`e.field_name` returns `e.field_name` unchanged. -/
theorem C6_canonical_idempotent (pre post : List TemplateField) (e : TemplateField)
    (hpre : ∀ e' ∈ pre, fieldMatches (cleanName e.field_name) e' = false) :
    get_canonical_test_name (pre ++ e :: post) e.field_name = e.field_name := by
  induction pre with
  | nil =>
    simp [get_canonical_test_name, List.find?, fieldMatches]
  | cons p pre ih =>
    have hp : fieldMatches (cleanName e.field_name) p = false :=
      hpre p (List.mem_cons_self _ _)
    have hrest : ∀ e' ∈ pre, fieldMatches (cleanName e.field_name) e' = false :=
      fun e' he' => hpre e' (List.mem_cons_of_mem _ he')
    simpa [get_canonical_test_name, List.find?, hp] using ih hrest

/-- C6 witness: resolving the modelled catalog's second canonical field name
returns it unchanged. -/
theorem C6_canonical_idempotent_witness :
    get_canonical_test_name test_name_fields "Total RBC Count" = "Total RBC Count" :=
  C6_canonical_idempotent
    [{ field_name := "Haemoglobin", keywords := ["Haemoglobin", "Hemoglobin", "Hb"],
       field_type := "numeric", sectionName := "Haematology" }]
    [{ field_name := "Glucose", keywords := ["Glucose", "GLU"],
       field_type := "numeric", sectionName := "Biochemistry" }]
    _ (by decide)

/-- C2: which category the classifier assigns to a block containing two
category labels depends on the iteration order of the category set.  The two
orders below enumerate the same six categories (they are permutations of each
other), yet on the same block text one yields `haematology` and the other
`serology`; since the source iterates a Python `set` with hash-seed-dependent
order, the tie-break is not fixed across runs. -/
theorem C2_category_order_dependent :
    InvestigationCategoryValues.Perm
      ["serology", "haematology", "biochemistry", "microbiology", "immunology",
       "clinical pathology"] ∧
    detect_category InvestigationCategoryValues
      "HAEMATOLOGY SEROLOGY Haemoglobin 13.5" = some "haematology" ∧
    detect_category
      ["serology", "haematology", "biochemistry", "microbiology", "immunology",
       "clinical pathology"]
      "HAEMATOLOGY SEROLOGY Haemoglobin 13.5" = some "serology" := by
  refine ⟨by decide, by decide, by decide⟩

/-- C10: for every input and every set-iteration order,
`MedicalTestParser.extract_investigations` reports `success = True`,
message `"Extraction successful"` and `error = None` — also when zero
investigations are extracted; it never reports failure through its return
value. -/
theorem C10_extract_investigations_always_success
    (fields : List TemplateField) (catOrder specOrder : List String)
    (lines : List String) :
    (extract_investigations fields catOrder specOrder lines).success = true ∧
    (extract_investigations fields catOrder specOrder lines).message =
      "Extraction successful" ∧
    (extract_investigations fields catOrder specOrder lines).error = none :=
  ⟨rfl, rfl, rfl⟩

lemma backfillField_eq_firstPopulated (x y : Option String) :
    backfillField x y = firstPopulated x y := by
  unfold backfillField firstPopulated
  cases hx : pyTruthyOS x <;> cases hy : pyTruthyOS y <;> simp

/-- C4: the merge engine is field-additive and never field-destructive — for
two candidates that share a merge key, the single output record keeps the
first candidate's identity and value and carries, for each subordinate field
(units, flag, reference_range, method, specimen), the first populated value
among the two candidates: an already-populated field is never overwritten and
a null-or-empty field is backfilled from the later candidate. -/
theorem C4_merge_field_additive (fields : List TemplateField) (a b : Investigation)
    (ha : a.test_name ≠ "") (hav : a.results.value.isSome = true)
    (hb : b.test_name ≠ "") (hbv : b.results.value.isSome = true)
    (hk : dedup_key fields a = dedup_key fields b) :
    merge_investigation_results fields [a] [b] =
      [{ a with results :=
          { value := a.results.value,
            units := firstPopulated a.results.units b.results.units,
            flag := firstPopulated a.results.flag b.results.flag,
            reference_range :=
              firstPopulated a.results.reference_range b.results.reference_range,
            method := firstPopulated a.results.method b.results.method,
            specimen := firstPopulated a.results.specimen b.results.specimen } }] := by
  have hpa : ((a.test_name != "") && a.results.value.isSome) = true := by
    simp [bne_iff_ne, ha, hav]
  have hpb : ((b.test_name != "") && b.results.value.isSome) = true := by
    simp [bne_iff_ne, hb, hbv]
  unfold merge_investigation_results
  have hfil :
      List.filter (fun inv => (inv.test_name != "") && inv.results.value.isSome)
        ([a] ++ [b]) = [a, b] := by
    simp [List.filter, hpa, hpb]
  rw [hfil]
  simp only [mergeFold, List.find?_nil, Option.isSome_none, Bool.false_eq_true,
    if_false, List.nil_append, ← hk, List.find?_cons, mergeUpdate]
  simp [backfillResults, backfillField_eq_firstPopulated]

/-- C4 witness: spec Scenario B — two Haemoglobin candidates with the same
rounded value, one without units and one with `g/dL`; the merge yields a
single record with the units backfilled. -/
theorem C4_merge_field_additive_witness :
    merge_investigation_results test_name_fields
      [{ investigation := "haematology", test_name := "Haemoglobin",
         results := { value := some { mantissa := 135, scale := 1 }, units := none,
                      reference_range := some "13.0 - 17.0", flag := none,
                      specimen := none, method := none } }]
      [{ investigation := "haematology", test_name := "Hb",
         results := { value := some { mantissa := 1350, scale := 2 }, units := some "g/dL",
                      reference_range := none, flag := none,
                      specimen := some "SERUM", method := none } }] =
      [{ investigation := "haematology", test_name := "Haemoglobin",
         results := { value := some { mantissa := 135, scale := 1 }, units := some "g/dL",
                      reference_range := some "13.0 - 17.0", flag := none,
                      specimen := some "SERUM", method := none } }] := by
  rw [C4_merge_field_additive test_name_fields _ _ (by decide) (by decide)
    (by decide) (by decide) (by decide)]
  decide

lemma dropWhileLengthLe (p : Char → Bool) :
    ∀ l : List Char, (l.dropWhile p).length ≤ l.length := by
  intro l
  induction l with
  | nil => simp
  | cons c cs ih =>
    rw [List.dropWhile]
    cases p c with
    | true => exact le_trans ih (by simp)
    | false => simp

lemma timeMatch2_length {s r : List Char} (h : timeMatch2 s = some r) :
    r.length < s.length := by
  unfold timeMatch2 at h
  split at h
  · split at h
    · rename_i a b c d rest _
      have hle := dropWhileLengthLe (fun ch => ch.isDigit || ch = ':') rest
      simp only [Option.some.injEq] at h
      subst h
      simp only [List.length_cons]
      omega
    · exact absurd h (by simp)
  · exact absurd h (by simp)

lemma timeMatch1_length {s r : List Char} (h : timeMatch1 s = some r) :
    r.length < s.length := by
  unfold timeMatch1 at h
  split at h
  · split at h
    · rename_i a c d rest _
      have hle := dropWhileLengthLe (fun ch => ch.isDigit || ch = ':') rest
      simp only [Option.some.injEq] at h
      subst h
      simp only [List.length_cons]
      omega
    · exact absurd h (by simp)
  · exact absurd h (by simp)

lemma timeMatchAt_length {s r : List Char} (h : timeMatchAt s = some r) :
    r.length < s.length := by
  unfold timeMatchAt at h
  cases h2 : timeMatch2 s with
  | some r2 => rw [h2] at h; cases h; exact timeMatch2_length h2
  | none => rw [h2] at h; exact timeMatch1_length h

lemma extract_field_none {patterns : List (String → Option String)} {text : String}
    (h : ∀ p ∈ patterns, p text = none) : _extract_field patterns text = none := by
  unfold _extract_field
  rw [List.findSome?_eq_none_iff]
  intro p hp
  rw [h p hp]
  rfl

lemma extractTextField_none {patterns : List (String → Option String)} {text : String}
    (h : ∀ p ∈ patterns, p text = none) : extractTextField patterns text = none := by
  unfold extractTextField
  rw [extract_field_none h]

lemma extractDateField_none {patterns : List (String → Option String)} {text : String}
    (h : ∀ p ∈ patterns, p text = none) : extractDateField patterns text = none := by
  unfold extractDateField
  rw [extract_field_none h]

/-- C8: for every input and every choice of extraction patterns, each patient
information field for which no pattern matches is present in the resulting
`PatientInformation` record with the explicit `"Not Provided"` sentinel.  The
record structurally always carries all seven fields, and the extractor and
model constructor are total, so no exception is raised for an unmatched
field. -/
theorem C8_patient_fields_default (pp : PatientPatterns) (lines : List String) :
    ((∀ p ∈ pp.patient_name, p (String.intercalate "\n" lines) = none) →
      (PatientInformation.ofDict (extract_patient_information pp lines)).patient_name =
        "Not Provided") ∧
    ((∀ p ∈ pp.age_sex, p (String.intercalate "\n" lines) = none) →
      (PatientInformation.ofDict (extract_patient_information pp lines)).age_sex =
        "Not Provided") ∧
    ((∀ p ∈ pp.patient_id, p (String.intercalate "\n" lines) = none) →
      (PatientInformation.ofDict (extract_patient_information pp lines)).patient_id =
        "Not Provided") ∧
    ((∀ p ∈ pp.sid_no, p (String.intercalate "\n" lines) = none) →
      (PatientInformation.ofDict (extract_patient_information pp lines)).sid_no =
        "Not Provided") ∧
    ((∀ p ∈ pp.collected_date, p (String.intercalate "\n" lines) = none) →
      (PatientInformation.ofDict (extract_patient_information pp lines)).collected_date =
        "Not Provided") ∧
    ((∀ p ∈ pp.reported_date, p (String.intercalate "\n" lines) = none) →
      (PatientInformation.ofDict (extract_patient_information pp lines)).reported_date =
        "Not Provided") ∧
    ((∀ p ∈ pp.ref_by, p (String.intercalate "\n" lines) = none) →
      (PatientInformation.ofDict (extract_patient_information pp lines)).ref_by =
        "Not Provided") := by
  refine ⟨fun h => ?_, fun h => ?_, fun h => ?_, fun h => ?_, fun h => ?_,
    fun h => ?_, fun h => ?_⟩
  · simp [PatientInformation.ofDict, extract_patient_information,
      extractTextField_none h]
  · have hf : _extract_age_sex pp.age_sex (String.intercalate "\n" lines) = none := by
      unfold _extract_age_sex
      rw [List.findSome?_eq_none_iff]
      intro p hp
      rw [h p hp]
      rfl
    simp [PatientInformation.ofDict, extract_patient_information, hf]
  · simp [PatientInformation.ofDict, extract_patient_information,
      extractTextField_none h]
  · simp [PatientInformation.ofDict, extract_patient_information,
      extractTextField_none h]
  · simp [PatientInformation.ofDict, extract_patient_information,
      extractDateField_none h]
  · simp [PatientInformation.ofDict, extract_patient_information,
      extractDateField_none h]
  · simp [PatientInformation.ofDict, extract_patient_information,
      extractTextField_none h]

/-- C8 witness: with no matching pattern for any field, every field of the
resulting record carries the sentinel. -/
theorem C8_patient_fields_default_witness :
    (PatientInformation.ofDict
      (extract_patient_information no_patient_patterns ["Haemoglobin 13.5"])).patient_name =
      "Not Provided" ∧
    (PatientInformation.ofDict
      (extract_patient_information no_patient_patterns ["Haemoglobin 13.5"])).age_sex =
      "Not Provided" ∧
    (PatientInformation.ofDict
      (extract_patient_information no_patient_patterns ["Haemoglobin 13.5"])).ref_by =
      "Not Provided" :=
  ⟨(C8_patient_fields_default no_patient_patterns ["Haemoglobin 13.5"]).1
      (by intro p hp; cases hp),
   (C8_patient_fields_default no_patient_patterns ["Haemoglobin 13.5"]).2.1
      (by intro p hp; cases hp),
   (C8_patient_fields_default no_patient_patterns ["Haemoglobin 13.5"]).2.2.2.2.2.2
      (by intro p hp; cases hp)⟩

/-- C7: an empty input line list does NOT propagate to the caller as a hard
failure.  `process_ocr_results` raises `ValueError("No text lines found in
OCR results")` for it, but its own blanket `except` catches the error and
converts it into a successful, empty `ExtractionResult` (all patient fields
at the sentinel, zero investigations); the error string itself is discarded
because the `quality_notes` keyword does not exist on the model.  The claim
describes the spec's intent, which the code's own raise shows and its own
handler defeats. -/
theorem C7_empty_input_swallowed (pp : PatientPatterns) (fields : List TemplateField)
    (catOrder specOrder : List String) :
    process_ocr_results_try pp fields catOrder specOrder [] =
      Except.error "No text lines found in OCR results" ∧
    process_ocr_results pp fields catOrder specOrder [] =
      { patient_information :=
          { patient_name := "Not Provided", age_sex := "Not Provided",
            patient_id := "Not Provided", sid_no := "Not Provided",
            collected_date := "Not Provided", reported_date := "Not Provided",
            ref_by := "Not Provided" },
        investigations := [],
        source := "OCR Document",
        warnings := [] } :=
  ⟨rfl, rfl⟩

/-- C1: the final investigation list of the live pipeline CAN contain two
entries sharing the merge key.  `process_ocr_results` builds its result from
the medical parser alone and never calls `merge_investigation_results`, so
the same test extracted with the same value from two blocks survives in
duplicate: on the failing input both entries carry the merge key
`"Haemoglobin:13.50"`. -/
theorem C1_pipeline_duplicate_merge_key :
    ((process_ocr_results no_patient_patterns test_name_fields
        InvestigationCategoryValues specimen_order C1_failing_lines).investigations.map
      (dedup_key test_name_fields)) =
      ["Haemoglobin:13.50", "Haemoglobin:13.50"] := by
  decide

lemma sepMatchAt_length {s r : List Char} (h : sepMatchAt s = some r) :
    r.length < s.length := by
  have h1 := dropWhileLengthLe isPySpace s
  unfold sepMatchAt at h
  split at h
  · rename_i t heq
    cases h
    have h2 := dropWhileLengthLe isPySpace t
    rw [heq] at h1
    simp only [List.length_cons] at h1
    omega
  · rename_i t heq
    cases h
    have h2 := dropWhileLengthLe isPySpace t
    rw [heq] at h1
    simp only [List.length_cons] at h1
    omega
  · rename_i t heq
    cases h
    have h2 := dropWhileLengthLe isPySpace t
    rw [heq] at h1
    simp only [List.length_cons] at h1
    omega
  · exact absurd h (by simp)

/-- C3 counterexample: on the Scenario D line the Table-Line Parser does NOT
yield test name `"Glucose (Fasting)"` with units `"mg/dL"`: the parenthesized
part is captured by the separate `method` group, and `normalize_units` maps
`"mg/dL"` to `"g/dL"` because its first mapping key `"g/dl"` is tested by
substring containment. -/
theorem C3_scenario_d_counterexample :
    ((parse_table_line "Serum | Glucose (Fasting) | 95 | H | mg/dL | 70-110").map
        (fun p => p.test_name)) ≠ some "Glucose (Fasting)" ∧
    ((parse_table_line "Serum | Glucose (Fasting) | 95 | H | mg/dL | 70-110").map
        (fun p => p.unit)) ≠ some (some "mg/dL") := by
  refine ⟨by decide, by decide⟩

/-- C3 (amended): parsing the Scenario D table line yields specimen `Serum`,
test name `"Glucose"` with method `"Fasting"` split off
into its own field, value `"95"` (the numeric capture, kept as a string),
flag `H`, units `"g/dL"` (the unit normalizer maps any units string
containing `g/dl` case-insensitively to `"g/dL"`), and reference range
`"70 - 110"`. -/
theorem C3_scenario_d_parse :
    parse_table_line "Serum | Glucose (Fasting) | 95 | H | mg/dL | 70-110" =
      some { test_name := "Glucose", value := "95", unit := some "g/dL",
             reference_range := some "70 - 110", flag := some "H",
             sample_type := some "Serum", method := some "Fasting" } := by
  decide

end MedOCR
